import Mathlib

/-!
Verification of the `Value` handle and `ValueType` classification of
`nix-bindings-expr/src/value.rs`, embedded shallowly: the foreign
reference-counting layer is modelled as an explicit world threaded through
each operation, recording a trace of the foreign calls that were made.
-/

namespace NixBindings

/-- Raw pointers of the foreign layer; `0` models the null pointer. -/
abbrev RawPtr := Nat

/-- The type discriminator of a `Value` (enum `ValueType` in `value.rs`). -/
inductive ValueType where
  | AttrSet
  | Bool
  | External
  | Float
  | Function
  | Int
  | List
  | Null
  | Path
  | String
  | Unknown
deriving DecidableEq, Repr

/-- Modelled from the spec: the raw type-tag enumeration of the foreign
layer (the `nix-bindings-expr-sys` crate is not under `src/`); it is a set
of distinct tags including a distinguished thunk tag. -/
def ValueType_NIX_TYPE_THUNK : Nat := 0

/-- Modelled from the spec: raw tag for integers. -/
def ValueType_NIX_TYPE_INT : Nat := 1

/-- Modelled from the spec: raw tag for floats. -/
def ValueType_NIX_TYPE_FLOAT : Nat := 2

/-- Modelled from the spec: raw tag for booleans. -/
def ValueType_NIX_TYPE_BOOL : Nat := 3

/-- Modelled from the spec: raw tag for strings. -/
def ValueType_NIX_TYPE_STRING : Nat := 4

/-- Modelled from the spec: raw tag for path values. -/
def ValueType_NIX_TYPE_PATH : Nat := 5

/-- Modelled from the spec: raw tag for null. -/
def ValueType_NIX_TYPE_NULL : Nat := 6

/-- Modelled from the spec: raw tag for attribute sets. -/
def ValueType_NIX_TYPE_ATTRS : Nat := 7

/-- Modelled from the spec: raw tag for lists. -/
def ValueType_NIX_TYPE_LIST : Nat := 8

/-- Modelled from the spec: raw tag for functions. -/
def ValueType_NIX_TYPE_FUNCTION : Nat := 9

/-- Modelled from the spec: raw tag for external values. -/
def ValueType_NIX_TYPE_EXTERNAL : Nat := 10

/-- The raw tags that `from_raw` recognizes (the eleven match arms with a
named constant pattern in `value.rs`). -/
def knownRawTags : List Nat :=
  [ValueType_NIX_TYPE_ATTRS, ValueType_NIX_TYPE_BOOL,
   ValueType_NIX_TYPE_EXTERNAL, ValueType_NIX_TYPE_FLOAT,
   ValueType_NIX_TYPE_FUNCTION, ValueType_NIX_TYPE_INT,
   ValueType_NIX_TYPE_LIST, ValueType_NIX_TYPE_NULL,
   ValueType_NIX_TYPE_PATH, ValueType_NIX_TYPE_STRING,
   ValueType_NIX_TYPE_THUNK]

/-- `ValueType::from_raw` from `value.rs`: a match on distinct raw-tag
constants, rendered as the equivalent equality chain; the thunk tag maps
to `none` and any unrecognized tag falls through to `some Unknown`. -/
def ValueType.from_raw (raw : Nat) : Option ValueType :=
  if raw = ValueType_NIX_TYPE_ATTRS then some ValueType.AttrSet
  else if raw = ValueType_NIX_TYPE_BOOL then some ValueType.Bool
  else if raw = ValueType_NIX_TYPE_EXTERNAL then some ValueType.External
  else if raw = ValueType_NIX_TYPE_FLOAT then some ValueType.Float
  else if raw = ValueType_NIX_TYPE_FUNCTION then some ValueType.Function
  else if raw = ValueType_NIX_TYPE_INT then some ValueType.Int
  else if raw = ValueType_NIX_TYPE_LIST then some ValueType.List
  else if raw = ValueType_NIX_TYPE_NULL then some ValueType.Null
  else if raw = ValueType_NIX_TYPE_PATH then some ValueType.Path
  else if raw = ValueType_NIX_TYPE_STRING then some ValueType.String
  else if raw = ValueType_NIX_TYPE_THUNK then none
  else some ValueType.Unknown

/-- Status returned by a foreign call (`nix_err` style: success or a
described failure). -/
inductive Status where
  | ok
  | err
deriving DecidableEq, Repr

/-- The call-context argument passed to a foreign call: `null_mut()` or a
fresh `Context::new()`. -/
inductive CallCtx where
  | null
  | fresh
deriving DecidableEq, Repr

/-- Modelled from the spec: the observable state of the foreign
reference-counting layer (the `nix-bindings-util` / sys crates are not
under `src/`): a reference count per node, test-double switches that make
the increment or decrement operation report failure, and a trace of the
foreign calls made so far, each recorded with the call-context it was
given and the node it targeted. -/
structure ForeignWorld where
  refcount : RawPtr → Nat
  increfOk : Bool
  decrefOk : Bool
  increfCalls : List (CallCtx × RawPtr)
  decrefCalls : List (CallCtx × RawPtr)

/-- Modelled from the spec: the foreign increment operation
`(call-context, node) → status`. On success it increases the node's
reference count by one; on failure the count is unchanged. Either way the
call itself is recorded in the trace. -/
def value_incref (ctx : CallCtx) (node : RawPtr) (w : ForeignWorld) :
    Status × ForeignWorld :=
  if w.increfOk then
    (Status.ok,
     { w with
        refcount := fun p => if p = node then w.refcount p + 1 else w.refcount p,
        increfCalls := w.increfCalls ++ [(ctx, node)] })
  else
    (Status.err, { w with increfCalls := w.increfCalls ++ [(ctx, node)] })

/-- Modelled from the spec: the foreign decrement operation
`(call-context, node) → status`. On success it decreases the node's
reference count by one; on failure the count is unchanged (the node
leaks). Either way the call itself is recorded in the trace. -/
def value_decref (ctx : CallCtx) (node : RawPtr) (w : ForeignWorld) :
    Status × ForeignWorld :=
  if w.decrefOk then
    (Status.ok,
     { w with
        refcount := fun p => if p = node then w.refcount p - 1 else w.refcount p,
        decrefCalls := w.decrefCalls ++ [(ctx, node)] })
  else
    (Status.err, { w with decrefCalls := w.decrefCalls ++ [(ctx, node)] })

/-- The `Value` handle of `value.rs`: it stores exactly one field, the
pointer to the foreign node (`inner: NonNull<raw::Value>`); non-nullness
is established at construction. -/
structure Value where
  inner : RawPtr
deriving DecidableEq, Repr

/-- `NonNull::new`: `some` of the pointer when it is non-null, `none` when
it is null. -/
def NonNull.new (p : RawPtr) : Option RawPtr :=
  if p = 0 then none else some p

/-- `Value::new` (adopt): `NonNull::new(inner).unwrap()`, so `none` models
the panic on a null pointer. It makes no foreign call, hence the world is
returned unchanged. -/
def Value.new (inner : RawPtr) (w : ForeignWorld) :
    Option Value × ForeignWorld :=
  match NonNull.new inner with
  | none => (none, w)
  | some np => (some { inner := np }, w)

/-- `Value::new_borrowed` (borrow): first `Value::new(inner)`, then
`value_incref(null_mut(), inner)` whose returned status is discarded. -/
def Value.new_borrowed (inner : RawPtr) (w : ForeignWorld) :
    Option Value × ForeignWorld :=
  match Value.new inner w with
  | (none, w1) => (none, w1)
  | (some v, w1) => (some v, (value_incref CallCtx.null inner w1).2)

/-- `impl Drop for Value`: one `value_decref(null_mut(), inner)` whose
status is ignored; destruction itself is total and returns no status. -/
def Value.drop (v : Value) (w : ForeignWorld) : ForeignWorld :=
  (value_decref CallCtx.null v.inner w).2

/-- `impl Clone for Value`:
`check_call!(value_incref(&mut Context::new(), inner)).unwrap()`, so a
failing increment status panics (`none`); on success a new handle with the
same inner pointer is returned. -/
def Value.clone (v : Value) (w : ForeignWorld) :
    Option Value × ForeignWorld :=
  match value_incref CallCtx.fresh v.inner w with
  | (Status.err, w1) => (none, w1)
  | (Status.ok, w1) => (some { inner := v.inner }, w1)

/-- Clone a handle `n` times in sequence, collecting the clones; `none`
models a panic in one of the clones. -/
def cloneN : Nat → Value → ForeignWorld → Option (List Value) × ForeignWorld
  | 0, _, w => (some [], w)
  | Nat.succ n, v, w =>
      match Value.clone v w with
      | (none, w1) => (none, w1)
      | (some c, w1) =>
          match cloneN n v w1 with
          | (none, w2) => (none, w2)
          | (some cs, w2) => (some (c :: cs), w2)

/-- Drop every handle in the list, in order. -/
def dropAll : List Value → ForeignWorld → ForeignWorld
  | [], w => w
  | v :: vs, w => dropAll vs (Value.drop v w)

/-- Modelled from the spec: the abstract evaluation state of a foreign
node, either still a thunk or evaluated to some kind (the evaluator that
performs forcing lives in the excluded `eval_state` component, not under
`src/`). -/
inductive NodeState where
  | thunk
  | evaluated (k : ValueType)
deriving DecidableEq, Repr

/-- Modelled from the spec: the externally driven forcing step on a node:
the only transition is `thunk → evaluated k`; an already evaluated node is
left unchanged. -/
def force (k : ValueType) : NodeState → NodeState
  | NodeState.thunk => NodeState.evaluated k
  | NodeState.evaluated k0 => NodeState.evaluated k0

/-- The raw type tag the foreign layer reports for each evaluated kind
(the inverse direction of `from_raw`; `Unknown` stands for any tag outside
the known set, represented by `11`). -/
def rawTag : ValueType → Nat
  | ValueType.AttrSet => ValueType_NIX_TYPE_ATTRS
  | ValueType.Bool => ValueType_NIX_TYPE_BOOL
  | ValueType.External => ValueType_NIX_TYPE_EXTERNAL
  | ValueType.Float => ValueType_NIX_TYPE_FLOAT
  | ValueType.Function => ValueType_NIX_TYPE_FUNCTION
  | ValueType.Int => ValueType_NIX_TYPE_INT
  | ValueType.List => ValueType_NIX_TYPE_LIST
  | ValueType.Null => ValueType_NIX_TYPE_NULL
  | ValueType.Path => ValueType_NIX_TYPE_PATH
  | ValueType.String => ValueType_NIX_TYPE_STRING
  | ValueType.Unknown => 11

/-- Modelled from the spec: the raw tag read from a node in a given
evaluation state: the distinguished thunk tag while unevaluated, the tag
of the kind once evaluated. -/
def rawTagOf : NodeState → Nat
  | NodeState.thunk => ValueType_NIX_TYPE_THUNK
  | NodeState.evaluated k => rawTag k

/-- Modelled from the spec: the shared evaluation state of the foreign
value graph, one `NodeState` per node. -/
structure EvalWorld where
  nodeState : RawPtr → NodeState

/-- Modelled from the spec: classification through a handle
(`value_type_unforced`): the handle stores only the node pointer, so the
query reads the shared node fresh and classifies its current raw tag with
`from_raw`; nothing is cached in the handle. -/
def value_type_unforced (v : Value) (e : EvalWorld) : Option ValueType :=
  ValueType.from_raw (rawTagOf (e.nodeState v.inner))

/-- Modelled from the spec: forcing the node through a given handle: the
shared node the handle points to takes one `force` step; all other nodes
are untouched. -/
def forceVia (v : Value) (k : ValueType) (e : EvalWorld) : EvalWorld :=
  { nodeState := fun p =>
      if p = v.inner then force k (e.nodeState p) else e.nodeState p }

/-- A concrete foreign world for instantiating the theorems: every node has
reference count 1, both foreign operations succeed, empty call trace. -/
def W0 : ForeignWorld :=
  { refcount := fun _ => 1
    increfOk := true
    decrefOk := true
    increfCalls := []
    decrefCalls := [] }

/-- A concrete foreign world whose increment operation reports failure. -/
def WFail : ForeignWorld :=
  { refcount := fun _ => 1
    increfOk := false
    decrefOk := true
    increfCalls := []
    decrefCalls := [] }

/-- A concrete evaluation world in which every node is still a thunk. -/
def E0 : EvalWorld := { nodeState := fun _ => NodeState.thunk }

/-
Helper lemmas shared by the claim theorems.
-/

lemma value_incref_ok_eq (ctx : CallCtx) (node : RawPtr) (w : ForeignWorld)
    (h : w.increfOk = true) :
    value_incref ctx node w =
      (Status.ok,
       { w with
          refcount := fun p => if p = node then w.refcount p + 1 else w.refcount p,
          increfCalls := w.increfCalls ++ [(ctx, node)] }) := by
  simp [value_incref, h]

lemma value_incref_err_eq (ctx : CallCtx) (node : RawPtr) (w : ForeignWorld)
    (h : w.increfOk = false) :
    value_incref ctx node w =
      (Status.err, { w with increfCalls := w.increfCalls ++ [(ctx, node)] }) := by
  simp [value_incref, h]

lemma value_decref_ok_eq (ctx : CallCtx) (node : RawPtr) (w : ForeignWorld)
    (h : w.decrefOk = true) :
    value_decref ctx node w =
      (Status.ok,
       { w with
          refcount := fun p => if p = node then w.refcount p - 1 else w.refcount p,
          decrefCalls := w.decrefCalls ++ [(ctx, node)] }) := by
  simp [value_decref, h]

lemma clone_ok_eq (v : Value) (w : ForeignWorld) (h : w.increfOk = true) :
    Value.clone v w =
      (some { inner := v.inner },
       { w with
          refcount := fun p => if p = v.inner then w.refcount p + 1 else w.refcount p,
          increfCalls := w.increfCalls ++ [(CallCtx.fresh, v.inner)] }) := by
  simp [Value.clone, value_incref, h]

lemma cloneN_ok (n : Nat) (v : Value) (w : ForeignWorld)
    (h : w.increfOk = true) :
    ∃ cs w2, cloneN n v w = (some cs, w2) ∧
      cs.length = n ∧
      (∀ c ∈ cs, c.inner = v.inner) ∧
      w2.refcount v.inner = w.refcount v.inner + n ∧
      w2.increfOk = true ∧
      w2.decrefOk = w.decrefOk ∧
      w2.increfCalls.length = w.increfCalls.length + n ∧
      w2.decrefCalls = w.decrefCalls := by
  induction n generalizing w with
  | zero => exact ⟨[], w, by simp [cloneN], rfl, by simp, by simp, h, rfl, rfl, rfl⟩
  | succ n ih =>
      obtain ⟨cs, w2, hc, hlen, hinner, hrc, hio, hdo, hicl, hdcl⟩ :=
        ih ({ w with
               refcount := fun p => if p = v.inner then w.refcount p + 1 else w.refcount p,
               increfCalls := w.increfCalls ++ [(CallCtx.fresh, v.inner)] }) h
      refine ⟨{ inner := v.inner } :: cs, w2, ?_, ?_, ?_, ?_, hio, hdo, ?_, hdcl⟩
      · simp [cloneN, clone_ok_eq v w h, hc]
      · simp [hlen]
      · intro c hcmem
        rcases List.mem_cons.mp hcmem with hh | ht
        · simp [hh]
        · exact hinner c ht
      · simp at hrc
        omega
      · simp at hicl
        omega

lemma dropAll_spec (vs : List Value) (w : ForeignWorld) (p : RawPtr)
    (hd : w.decrefOk = true) (hall : ∀ v ∈ vs, v.inner = p) :
    (dropAll vs w).refcount p = w.refcount p - vs.length ∧
    (dropAll vs w).decrefCalls.length = w.decrefCalls.length + vs.length ∧
    (dropAll vs w).increfCalls = w.increfCalls := by
  induction vs generalizing w with
  | nil => simp [dropAll]
  | cons v vs ih =>
      have hv : v.inner = p := hall v (List.mem_cons_self v vs)
      have hstep : Value.drop v w =
          { w with
             refcount := fun q => if q = v.inner then w.refcount q - 1 else w.refcount q,
             decrefCalls := w.decrefCalls ++ [(CallCtx.null, v.inner)] } := by
        simp [Value.drop, value_decref, hd]
      obtain ⟨h1, h2, h3⟩ :=
        ih ({ w with
               refcount := fun q => if q = v.inner then w.refcount q - 1 else w.refcount q,
               decrefCalls := w.decrefCalls ++ [(CallCtx.null, v.inner)] })
          hd (fun u hu => hall u (List.mem_cons_of_mem v hu))
      refine ⟨?_, ?_, ?_⟩
      · simp only [dropAll, hstep]
        rw [h1]
        simp [hv]
        omega
      · simp only [dropAll, hstep]
        rw [h2]
        simp
        omega
      · simp only [dropAll, hstep]
        rw [h3]

lemma from_raw_unknown_of_not_mem (t : Nat) (ht : t ∉ knownRawTags) :
    ValueType.from_raw t = some ValueType.Unknown := by
  simp [knownRawTags, ValueType_NIX_TYPE_ATTRS, ValueType_NIX_TYPE_BOOL,
    ValueType_NIX_TYPE_EXTERNAL, ValueType_NIX_TYPE_FLOAT,
    ValueType_NIX_TYPE_FUNCTION, ValueType_NIX_TYPE_INT,
    ValueType_NIX_TYPE_LIST, ValueType_NIX_TYPE_NULL,
    ValueType_NIX_TYPE_PATH, ValueType_NIX_TYPE_STRING,
    ValueType_NIX_TYPE_THUNK] at ht
  simp [ValueType.from_raw, ValueType_NIX_TYPE_ATTRS, ValueType_NIX_TYPE_BOOL,
    ValueType_NIX_TYPE_EXTERNAL, ValueType_NIX_TYPE_FLOAT,
    ValueType_NIX_TYPE_FUNCTION, ValueType_NIX_TYPE_INT,
    ValueType_NIX_TYPE_LIST, ValueType_NIX_TYPE_NULL,
    ValueType_NIX_TYPE_PATH, ValueType_NIX_TYPE_STRING,
    ValueType_NIX_TYPE_THUNK, ht]

/-- C2: clone increments the foreign reference count of the same underlying
node exactly once and returns a new handle whose inner pointer equals the
original's, so destroying the original leaves the clone valid (count still
positive) and observing the same node. -/
theorem clone_aliases_same_node (v : Value) (w : ForeignWorld)
    (hinc : w.increfOk = true) (hdec : w.decrefOk = true)
    (hpos : 1 ≤ w.refcount v.inner) :
    ∃ c w1, Value.clone v w = (some c, w1) ∧
      c.inner = v.inner ∧
      w1.refcount v.inner = w.refcount v.inner + 1 ∧
      w1.increfCalls = w.increfCalls ++ [(CallCtx.fresh, v.inner)] ∧
      (Value.drop v w1).refcount c.inner = w.refcount v.inner ∧
      1 ≤ (Value.drop v w1).refcount c.inner := by
  refine ⟨{ inner := v.inner }, _, clone_ok_eq v w hinc, rfl, by simp, rfl, ?_, ?_⟩
  · simp [Value.drop, value_decref, hdec]
  · simp [Value.drop, value_decref, hdec]
    omega

/-- C2 witness: instantiation at a concrete handle and world. -/
theorem clone_aliases_same_node_witness :
    W0.increfOk = true ∧ W0.decrefOk = true ∧
    1 ≤ W0.refcount (1 : RawPtr) ∧
    (∃ c w1, Value.clone { inner := 1 } W0 = (some c, w1) ∧
      c.inner = (1 : RawPtr) ∧
      w1.refcount 1 = W0.refcount 1 + 1 ∧
      w1.increfCalls = W0.increfCalls ++ [(CallCtx.fresh, 1)] ∧
      (Value.drop { inner := 1 } w1).refcount c.inner = W0.refcount 1 ∧
      1 ≤ (Value.drop { inner := 1 } w1).refcount c.inner) :=
  ⟨rfl, rfl, by simp [W0],
   clone_aliases_same_node { inner := 1 } W0 rfl rfl (by simp [W0])⟩

/-- C3: when the foreign increment reports failure during clone, clone
panics (returns no handle) rather than silently ignoring the failure and
proceeding; the reference count is left unchanged. -/
theorem clone_panics_on_incref_failure (v : Value) (w : ForeignWorld)
    (h : w.increfOk = false) :
    (Value.clone v w).1 = none ∧
    (Value.clone v w).2.refcount v.inner = w.refcount v.inner := by
  simp [Value.clone, value_incref, h]

/-- C3 witness: instantiation at a concrete handle and failing world. -/
theorem clone_panics_on_incref_failure_witness :
    WFail.increfOk = false ∧
    (Value.clone { inner := 1 } WFail).1 = none ∧
    (Value.clone { inner := 1 } WFail).2.refcount 1 = WFail.refcount 1 :=
  ⟨rfl, clone_panics_on_incref_failure { inner := 1 } WFail rfl⟩

/-- C4: destruction performs exactly one foreign decrement call (and no
increment call) unconditionally; in the embedding `Value.drop` is a total
function into worlds — it returns no status and has no failing branch even
when the decrement reports failure. -/
theorem drop_decrements_exactly_once (v : Value) (w : ForeignWorld) :
    (Value.drop v w).decrefCalls = w.decrefCalls ++ [(CallCtx.null, v.inner)] ∧
    (Value.drop v w).increfCalls = w.increfCalls := by
  cases h : w.decrefOk <;> simp [Value.drop, value_decref, h]

/-- C5: adoption via `Value::new` makes zero foreign calls (the world is
returned untouched), while `Value::new_borrowed` makes exactly one foreign
increment call on the provided node; both return a handle whose inner
pointer is the provided pointer. -/
theorem adopt_no_incref_borrow_one_incref (p : RawPtr) (w : ForeignWorld)
    (hp : p ≠ 0) :
    Value.new p w = (some { inner := p }, w) ∧
    ∃ w1, Value.new_borrowed p w = (some { inner := p }, w1) ∧
      w1.increfCalls = w.increfCalls ++ [(CallCtx.null, p)] ∧
      w1.decrefCalls = w.decrefCalls := by
  refine ⟨by simp [Value.new, NonNull.new, hp],
    (value_incref CallCtx.null p w).2, ?_, ?_, ?_⟩
  · simp [Value.new_borrowed, Value.new, NonNull.new, hp]
  · cases h : w.increfOk <;> simp [value_incref, h]
  · cases h : w.increfOk <;> simp [value_incref, h]

/-- C5 witness: instantiation at a concrete pointer and world. -/
theorem adopt_no_incref_borrow_one_incref_witness :
    (1 : RawPtr) ≠ 0 ∧
    Value.new 1 W0 = (some { inner := 1 }, W0) ∧
    (∃ w1, Value.new_borrowed 1 W0 = (some { inner := 1 }, w1) ∧
      w1.increfCalls = W0.increfCalls ++ [(CallCtx.null, 1)] ∧
      w1.decrefCalls = W0.decrefCalls) :=
  ⟨by decide, adopt_no_incref_borrow_one_incref 1 W0 (by decide)⟩

/-- C9: `Value::new` checks the provided pointer with
`NonNull::new(inner).unwrap()`: a null input deterministically panics and
never yields a handle, and every successfully constructed handle stores a
non-null pointer equal to the input. -/
theorem new_null_panics_nonnull_invariant (p : RawPtr) (w : ForeignWorld)
    (v : Value) (w1 : ForeignWorld) (h : Value.new p w = (some v, w1)) :
    Value.new 0 w = (none, w) ∧ v.inner = p ∧ p ≠ 0 ∧ v.inner ≠ 0 := by
  have hp : p ≠ 0 := by
    intro hp0
    subst hp0
    simp [Value.new, NonNull.new] at h
  have hv : v.inner = p := by
    simp [Value.new, NonNull.new, hp] at h
    obtain ⟨h1, h2⟩ := h
    simp [← h1]
  exact ⟨by simp [Value.new, NonNull.new], hv, hp, by rw [hv]; exact hp⟩

/-- C9 witness: instantiation at a concrete non-null pointer. -/
theorem new_null_panics_nonnull_invariant_witness :
    Value.new 5 W0 = (some { inner := 5 }, W0) ∧
    (Value.new 0 W0 = (none, W0) ∧
      ({ inner := 5 } : Value).inner = (5 : RawPtr) ∧ (5 : RawPtr) ≠ 0 ∧
      ({ inner := 5 } : Value).inner ≠ 0) :=
  ⟨rfl, new_null_panics_nonnull_invariant 5 W0 { inner := 5 } W0 rfl⟩

/-- C10: `Value::new_borrowed` invokes the foreign increment with a null
call-context and discards its status: when the increment fails, the owning
handle is still returned and the count is unchanged — unlike clone on the
same world, which refuses to return a handle. -/
theorem borrow_ignores_incref_failure (p : RawPtr) (w : ForeignWorld)
    (hp : p ≠ 0) (hfail : w.increfOk = false) :
    ∃ w1, Value.new_borrowed p w = (some { inner := p }, w1) ∧
      w1.refcount p = w.refcount p ∧
      w1.increfCalls = w.increfCalls ++ [(CallCtx.null, p)] ∧
      (Value.clone { inner := p } w).1 = none := by
  refine ⟨{ w with increfCalls := w.increfCalls ++ [(CallCtx.null, p)] },
    ?_, rfl, rfl, ?_⟩
  · simp [Value.new_borrowed, Value.new, NonNull.new, hp, value_incref, hfail]
  · simp [Value.clone, value_incref, hfail]

/-- C10 witness: instantiation at a concrete pointer and failing world. -/
theorem borrow_ignores_incref_failure_witness :
    (1 : RawPtr) ≠ 0 ∧ WFail.increfOk = false ∧
    (∃ w1, Value.new_borrowed 1 WFail = (some { inner := 1 }, w1) ∧
      w1.refcount 1 = WFail.refcount 1 ∧
      w1.increfCalls = WFail.increfCalls ++ [(CallCtx.null, 1)] ∧
      (Value.clone { inner := 1 } WFail).1 = none) :=
  ⟨by decide, rfl, borrow_ignores_incref_failure 1 WFail (by decide) rfl⟩

/-- C1: reference-count balance: constructing a handle via borrow performs
one increment, each of the n clones performs exactly one increment, each of
the n + 1 destructions performs exactly one decrement, and the foreign
reference count of the node ends exactly where it started. -/
theorem refcount_balance (p : RawPtr) (n : Nat) (w : ForeignWorld)
    (hp : p ≠ 0) (hinc : w.increfOk = true) (hdec : w.decrefOk = true) :
    ∃ v cs w1 w2,
      Value.new_borrowed p w = (some v, w1) ∧
      v.inner = p ∧
      w1.increfCalls.length = w.increfCalls.length + 1 ∧
      cloneN n v w1 = (some cs, w2) ∧
      cs.length = n ∧
      w2.increfCalls.length = w.increfCalls.length + (1 + n) ∧
      w2.decrefCalls = w.decrefCalls ∧
      (dropAll (v :: cs) w2).decrefCalls.length =
        w.decrefCalls.length + (n + 1) ∧
      (dropAll (v :: cs) w2).refcount p = w.refcount p := by
  have hb : Value.new_borrowed p w =
      (some { inner := p },
       { w with
          refcount := fun q => if q = p then w.refcount q + 1 else w.refcount q,
          increfCalls := w.increfCalls ++ [(CallCtx.null, p)] }) := by
    simp [Value.new_borrowed, Value.new, NonNull.new, hp, value_incref, hinc]
  obtain ⟨cs, w2, hc, hlen, hinner, hrc, hio, hdo, hicl, hdcl⟩ :=
    cloneN_ok n { inner := p }
      ({ w with
          refcount := fun q => if q = p then w.refcount q + 1 else w.refcount q,
          increfCalls := w.increfCalls ++ [(CallCtx.null, p)] }) hinc
  have hall : ∀ u ∈ ({ inner := p } : Value) :: cs, u.inner = p := by
    intro u hu
    rcases List.mem_cons.mp hu with hh | ht
    · simp [hh]
    · exact hinner u ht
  obtain ⟨hd1, hd2, hd3⟩ :=
    dropAll_spec (({ inner := p } : Value) :: cs) w2 p (hdo.trans hdec) hall
  refine ⟨{ inner := p }, cs, _, w2, hb, rfl, by simp, hc, hlen, ?_, ?_, ?_, ?_⟩
  · simp at hicl
    omega
  · exact hdcl
  · rw [hd2, hdcl]
    simp [hlen]
  · rw [hd1]
    simp at hrc
    simp [hlen]
    omega

/-- C1 witness: borrow then two clones then three drops on a concrete
world returns the count to its starting point. -/
theorem refcount_balance_witness :
    ((1 : RawPtr) ≠ 0 ∧ W0.increfOk = true ∧ W0.decrefOk = true) ∧
    (∃ v cs w1 w2,
      Value.new_borrowed 1 W0 = (some v, w1) ∧
      v.inner = (1 : RawPtr) ∧
      w1.increfCalls.length = W0.increfCalls.length + 1 ∧
      cloneN 2 v w1 = (some cs, w2) ∧
      cs.length = 2 ∧
      w2.increfCalls.length = W0.increfCalls.length + (1 + 2) ∧
      w2.decrefCalls = W0.decrefCalls ∧
      (dropAll (v :: cs) w2).decrefCalls.length =
        W0.decrefCalls.length + (2 + 1) ∧
      (dropAll (v :: cs) w2).refcount 1 = W0.refcount 1) :=
  ⟨⟨by decide, rfl, rfl⟩, refcount_balance 1 2 W0 (by decide) rfl rfl⟩

/-- C6: `from_raw` maps each of the ten specific raw tags to `some` of the
corresponding kind, maps the thunk tag to `none`, and maps every tag
outside the known set to `some Unknown`. -/
theorem from_raw_mapping :
    ValueType.from_raw ValueType_NIX_TYPE_ATTRS = some ValueType.AttrSet ∧
    ValueType.from_raw ValueType_NIX_TYPE_BOOL = some ValueType.Bool ∧
    ValueType.from_raw ValueType_NIX_TYPE_EXTERNAL = some ValueType.External ∧
    ValueType.from_raw ValueType_NIX_TYPE_FLOAT = some ValueType.Float ∧
    ValueType.from_raw ValueType_NIX_TYPE_FUNCTION = some ValueType.Function ∧
    ValueType.from_raw ValueType_NIX_TYPE_INT = some ValueType.Int ∧
    ValueType.from_raw ValueType_NIX_TYPE_LIST = some ValueType.List ∧
    ValueType.from_raw ValueType_NIX_TYPE_NULL = some ValueType.Null ∧
    ValueType.from_raw ValueType_NIX_TYPE_PATH = some ValueType.Path ∧
    ValueType.from_raw ValueType_NIX_TYPE_STRING = some ValueType.String ∧
    ValueType.from_raw ValueType_NIX_TYPE_THUNK = none ∧
    ∀ t : Nat, t ∉ knownRawTags →
      ValueType.from_raw t = some ValueType.Unknown := by
  exact ⟨by decide, by decide, by decide, by decide, by decide, by decide,
    by decide, by decide, by decide, by decide, by decide,
    from_raw_unknown_of_not_mem⟩

/-- C6 witness: a concrete tag outside the known set classifies to
`Unknown`. -/
theorem from_raw_mapping_witness :
    (99 : Nat) ∉ knownRawTags ∧
    ValueType.from_raw 99 = some ValueType.Unknown :=
  ⟨by decide,
   from_raw_mapping.2.2.2.2.2.2.2.2.2.2.2 99 (by decide)⟩

/-- C7: `from_raw` is total, and the thunk tag is the sole input on which
it returns `none`: every other tag yields `some` of some kind. -/
theorem from_raw_total_none_iff_thunk (t : Nat) :
    (ValueType.from_raw t = none ↔ t = ValueType_NIX_TYPE_THUNK) ∧
    (t ≠ ValueType_NIX_TYPE_THUNK → ∃ k, ValueType.from_raw t = some k) := by
  have hiff : ValueType.from_raw t = none ↔ t = ValueType_NIX_TYPE_THUNK := by
    constructor
    · intro hnone
      by_cases hk : t ∈ knownRawTags
      · simp [knownRawTags, ValueType_NIX_TYPE_ATTRS, ValueType_NIX_TYPE_BOOL,
          ValueType_NIX_TYPE_EXTERNAL, ValueType_NIX_TYPE_FLOAT,
          ValueType_NIX_TYPE_FUNCTION, ValueType_NIX_TYPE_INT,
          ValueType_NIX_TYPE_LIST, ValueType_NIX_TYPE_NULL,
          ValueType_NIX_TYPE_PATH, ValueType_NIX_TYPE_STRING,
          ValueType_NIX_TYPE_THUNK] at hk
        rcases hk with h | h | h | h | h | h | h | h | h | h | h <;>
          subst h <;> revert hnone <;> decide
      · rw [from_raw_unknown_of_not_mem t hk] at hnone
        exact absurd hnone (by simp)
    · intro h0
      subst h0
      decide
  refine ⟨hiff, fun ht => ?_⟩
  cases hr : ValueType.from_raw t with
  | none => exact absurd (hiff.mp hr) ht
  | some k => exact ⟨k, rfl⟩

/-- C7 witness: a concrete non-thunk tag classifies to `some` kind. -/
theorem from_raw_total_none_iff_thunk_witness :
    (3 : Nat) ≠ ValueType_NIX_TYPE_THUNK ∧
    ∃ k, ValueType.from_raw 3 = some k :=
  ⟨by decide, (from_raw_total_none_iff_thunk 3).2 (by decide)⟩

lemma from_raw_rawTag (k : ValueType) :
    ValueType.from_raw (rawTag k) = some k := by
  cases k <;> decide

/-- C8: the evaluation-state machine is monotonic and shared: the only
forcing transition is thunk to evaluated, an evaluated node never changes
(in particular never returns to thunk), classification through a handle
depends only on the pointed-to node so aliasing handles always agree (no
handle caches a classification), forcing through any alias updates the one
shared node, and after forcing a thunk every alias classifies it as the
evaluated kind. -/
theorem monotonic_evaluation_shared (u v : Value) (k : ValueType)
    (e : EvalWorld) (halias : u.inner = v.inner) :
    force k NodeState.thunk = NodeState.evaluated k ∧
    (∀ k0, force k (NodeState.evaluated k0) = NodeState.evaluated k0) ∧
    (∀ e1 : EvalWorld, value_type_unforced v e1 = value_type_unforced u e1) ∧
    (forceVia u k e).nodeState v.inner = force k (e.nodeState u.inner) ∧
    (e.nodeState u.inner = NodeState.thunk →
      value_type_unforced v (forceVia u k e) = some k ∧
      value_type_unforced u (forceVia u k e) = some k) := by
  refine ⟨rfl, fun k0 => rfl, ?_, ?_, ?_⟩
  · intro e1
    simp [value_type_unforced, ← halias]
  · simp [forceVia, ← halias]
  · intro hth
    constructor <;>
      simp [value_type_unforced, forceVia, ← halias, hth, force,
        rawTagOf, from_raw_rawTag]

/-- C8 witness: instantiation with two aliasing handles on a concrete
all-thunk evaluation world and the integer kind. -/
theorem monotonic_evaluation_shared_witness :
    ({ inner := 1 } : Value).inner = ({ inner := 1 } : Value).inner ∧
    (force ValueType.Int NodeState.thunk = NodeState.evaluated ValueType.Int ∧
     (∀ k0, force ValueType.Int (NodeState.evaluated k0) =
        NodeState.evaluated k0) ∧
     (∀ e1 : EvalWorld,
        value_type_unforced { inner := 1 } e1 =
          value_type_unforced { inner := 1 } e1) ∧
     (forceVia { inner := 1 } ValueType.Int E0).nodeState
        ({ inner := 1 } : Value).inner =
       force ValueType.Int (E0.nodeState ({ inner := 1 } : Value).inner) ∧
     (E0.nodeState ({ inner := 1 } : Value).inner = NodeState.thunk →
       value_type_unforced { inner := 1 }
           (forceVia { inner := 1 } ValueType.Int E0) = some ValueType.Int ∧
       value_type_unforced { inner := 1 }
           (forceVia { inner := 1 } ValueType.Int E0) = some ValueType.Int)) :=
  ⟨rfl, monotonic_evaluation_shared { inner := 1 } { inner := 1 }
    ValueType.Int E0 rfl⟩

end NixBindings
